import Mathlib

/-!
# Verification of the SFTP client in `sftp-client.c`

A shallow embedding of the SFTP client engine of this repository
(`src/sftp/sftp-client.c`): the connection record, the handshake and its
extension negotiation, the single-shot request/reply operations, and the two
pipelined bulk-transfer loops (download and upload).  Machine integers of the
C source (`u_int`, `u_int32_t`, `u_int64_t`) are modelled as `Nat`; the
bounded arithmetic of the source is made explicit where it matters.  Fallible
paths (`fatal(...)` aborts, `NULL` returns) are modelled with `Option`.

Protocol constants (`SSH2_FXP_*`, `SSH2_FX_*`, `SSH2_FXF_*`,
`SSH2_FILEXFER_ATTR_*`, `SSH2_FXE_STATVFS_ST_*`) live in `sftp.h` and
`sftp-common.h`, which are not part of the source tree; their numeric values
are modelled from the spec's external-interface table (spec §6).
-/

namespace Sftp

/-- Modelled from the spec: opcode table of spec §6; `sftp.h` is not in the
source tree.  `SSH2_FXP_STAT_VERSION_0` is listed there as
"STAT_VERSION_0(17 with v0 semantics)". -/
def SSH2_FXP_INIT : Nat := 1
def SSH2_FXP_VERSION : Nat := 2
def SSH2_FXP_OPEN : Nat := 3
def SSH2_FXP_CLOSE : Nat := 4
def SSH2_FXP_READ : Nat := 5
def SSH2_FXP_WRITE : Nat := 6
def SSH2_FXP_LSTAT : Nat := 7
def SSH2_FXP_SETSTAT : Nat := 9
def SSH2_FXP_FSETSTAT : Nat := 10
def SSH2_FXP_OPENDIR : Nat := 11
def SSH2_FXP_READDIR : Nat := 12
def SSH2_FXP_REMOVE : Nat := 13
def SSH2_FXP_MKDIR : Nat := 14
def SSH2_FXP_RMDIR : Nat := 15
def SSH2_FXP_REALPATH : Nat := 16
def SSH2_FXP_STAT : Nat := 17
def SSH2_FXP_STAT_VERSION_0 : Nat := 17
def SSH2_FXP_RENAME : Nat := 18
def SSH2_FXP_SYMLINK : Nat := 20
def SSH2_FXP_STATUS : Nat := 101
def SSH2_FXP_HANDLE : Nat := 102
def SSH2_FXP_DATA : Nat := 103
def SSH2_FXP_NAME : Nat := 104
def SSH2_FXP_ATTRS : Nat := 105
def SSH2_FXP_EXTENDED : Nat := 200
def SSH2_FXP_EXTENDED_REPLY : Nat := 201

/-- Modelled from the spec: status codes of spec §6 (`sftp.h` is missing). -/
def SSH2_FX_OK : Nat := 0
def SSH2_FX_EOF : Nat := 1
def SSH2_FX_OP_UNSUPPORTED : Nat := 8

/-- Modelled from the spec: open flags of spec §6 (`sftp.h` is missing). -/
def SSH2_FXF_READ : Nat := 1
def SSH2_FXF_WRITE : Nat := 2
def SSH2_FXF_CREAT : Nat := 8
def SSH2_FXF_TRUNC : Nat := 16

/-- Modelled from the spec: attrib flag bits of spec §6
(`SIZE(1), UIDGID(2), PERMISSIONS(4), ACMODTIME(8)`). -/
def SSH2_FILEXFER_ATTR_SIZE : Nat := 1
def SSH2_FILEXFER_ATTR_UIDGID : Nat := 2
def SSH2_FILEXFER_ATTR_PERMISSIONS : Nat := 4
def SSH2_FILEXFER_ATTR_ACMODTIME : Nat := 8

/-- `sftp-client.c` line 52: minimum amount of data to read at a time. -/
def MIN_READ_SIZE : Nat := 512

/-- Extension bits of `struct sftp_conn` (`sftp-client.c` lines 61-63). -/
def SFTP_EXT_POSIX_RENAME : Nat := 1
def SFTP_EXT_STATVFS : Nat := 2
def SFTP_EXT_FSTATVFS : Nat := 4

/-- The `Attrib` record of `sftp-common.h` (declaration not in the source
tree; field list per spec §3): a flags bitmask plus the optional fields it
gates. -/
structure Attrib where
  flags : Nat
  size : Nat
  uid : Nat
  gid : Nat
  perm : Nat
  atime : Nat
  mtime : Nat
deriving Repr, DecidableEq

/-- `struct sftp_conn` (`sftp-client.c` lines 54-65), without the two file
descriptors (the byte streams are passed explicitly to the operations as
reply values). -/
structure SftpConn where
  transfer_buflen : Nat
  num_requests : Nat
  version : Nat
  msg_id : Nat
  exts : Nat
deriving Repr, DecidableEq

/-- One typed field of an outgoing wire message, as written by the
`buffer_put_*` / `encode_attrib` primitives. -/
inductive WireField where
  | w8 (v : Nat)
  | w32 (v : Nat)
  | w64 (v : Nat)
  | wstr (s : String)
  | wattr (a : Attrib)
deriving Repr, DecidableEq

/-! ## Handshake (`do_init`, lines 297-371) -/

/-- One pass of the extension-recognition chain in `do_init` (lines 332-344).
The source's third comparison is a bare `if`, not `else if`; the model keeps
that structure. -/
def extStep (exts : Nat) (p : String × String) : Nat :=
  let exts1 :=
    if p.1 == "posix-rename@openssh.com" && p.2 == "1" then
      exts ||| SFTP_EXT_POSIX_RENAME
    else if p.1 == "statvfs@openssh.com" && p.2 == "2" then
      exts ||| SFTP_EXT_STATVFS
    else exts
  if p.1 == "fstatvfs@openssh.com" && p.2 == "2" then
    exts1 ||| SFTP_EXT_FSTATVFS
  else exts1

/-- The `while (buffer_len(&msg) > 0)` extension loop of `do_init`
(lines 327-353), over the decoded (name, value) string pairs of the VERSION
body, starting from `exts = 0`. -/
def parseExts (ps : List (String × String)) : Nat :=
  ps.foldl extStep 0

/-- The decoded body of the one message `do_init` reads: its type byte, the
advertised version, and the (name, value) extension pairs. -/
structure VersionReply where
  rtype : Nat
  version : Nat
  extPairs : List (String × String)
deriving Repr, DecidableEq

/-- `do_init` (lines 297-371).  `none` models the `return NULL` paths
(`get_msg` failure, non-VERSION reply).  On success the connection starts
with `msg_id = 1`, records the negotiated extensions, and clamps
`transfer_buflen` to 20480 for version-0 servers (lines 366-368). -/
def do_init (transfer_buflen num_requests : Nat) (reply : Option VersionReply) :
    Option SftpConn :=
  match reply with
  | none => none
  | some r =>
    if r.rtype ≠ SSH2_FXP_VERSION then none
    else
      let ret : SftpConn :=
        { transfer_buflen := transfer_buflen
          num_requests := num_requests
          version := r.version
          msg_id := 1
          exts := parseExts r.extPairs }
      if r.version = 0 then
        some { ret with transfer_buflen := min ret.transfer_buflen 20480 }
      else some ret

theorem extStep_testBit_zero (e : Nat) (p : String × String) :
    ((extStep e p).testBit 0 = true) ↔
      (e.testBit 0 = true ∨ p = ("posix-rename@openssh.com", "1")) := by
  rcases p with ⟨n, v⟩
  simp only [extStep, SFTP_EXT_POSIX_RENAME, SFTP_EXT_STATVFS, SFTP_EXT_FSTATVFS]
  cases h1 : (n == "posix-rename@openssh.com" && v == "1") <;>
    cases h2 : (n == "statvfs@openssh.com" && v == "2") <;>
      cases h3 : (n == "fstatvfs@openssh.com" && v == "2") <;>
        simp_all [Nat.testBit_or, Prod.mk.injEq,
          (by decide : Nat.testBit 1 0 = true),
          (by decide : Nat.testBit 2 0 = false),
          (by decide : Nat.testBit 4 0 = false)]

theorem extStep_testBit_one (e : Nat) (p : String × String) :
    ((extStep e p).testBit 1 = true) ↔
      (e.testBit 1 = true ∨ p = ("statvfs@openssh.com", "2")) := by
  rcases p with ⟨n, v⟩
  simp only [extStep, SFTP_EXT_POSIX_RENAME, SFTP_EXT_STATVFS, SFTP_EXT_FSTATVFS]
  cases h1 : (n == "posix-rename@openssh.com" && v == "1") <;>
    cases h2 : (n == "statvfs@openssh.com" && v == "2") <;>
      cases h3 : (n == "fstatvfs@openssh.com" && v == "2") <;>
        simp_all [Nat.testBit_or, Prod.mk.injEq,
          (by decide : Nat.testBit 1 1 = false),
          (by decide : Nat.testBit 2 1 = true),
          (by decide : Nat.testBit 4 1 = false)]

theorem extStep_testBit_two (e : Nat) (p : String × String) :
    ((extStep e p).testBit 2 = true) ↔
      (e.testBit 2 = true ∨ p = ("fstatvfs@openssh.com", "2")) := by
  rcases p with ⟨n, v⟩
  simp only [extStep, SFTP_EXT_POSIX_RENAME, SFTP_EXT_STATVFS, SFTP_EXT_FSTATVFS]
  cases h1 : (n == "posix-rename@openssh.com" && v == "1") <;>
    cases h2 : (n == "statvfs@openssh.com" && v == "2") <;>
      cases h3 : (n == "fstatvfs@openssh.com" && v == "2") <;>
        simp_all [Nat.testBit_or, Prod.mk.injEq,
          (by decide : Nat.testBit 1 2 = false),
          (by decide : Nat.testBit 2 2 = false),
          (by decide : Nat.testBit 4 2 = true)]

theorem extStep_testBit_high (e : Nat) (p : String × String) (i : Nat) :
    (extStep e p).testBit (i + 3) = e.testBit (i + 3) := by
  have h1 : Nat.testBit 1 (i + 3) = false :=
    Nat.testBit_lt_two_pow (by calc 1 < 2 ^ 3 := by decide
                                 _ ≤ 2 ^ (i + 3) :=
                                   Nat.pow_le_pow_right (by decide) (by omega))
  have h2 : Nat.testBit 2 (i + 3) = false :=
    Nat.testBit_lt_two_pow (by calc 2 < 2 ^ 3 := by decide
                                 _ ≤ 2 ^ (i + 3) :=
                                   Nat.pow_le_pow_right (by decide) (by omega))
  have h4 : Nat.testBit 4 (i + 3) = false :=
    Nat.testBit_lt_two_pow (by calc 4 < 2 ^ 3 := by decide
                                 _ ≤ 2 ^ (i + 3) :=
                                   Nat.pow_le_pow_right (by decide) (by omega))
  rcases p with ⟨n, v⟩
  simp only [extStep, SFTP_EXT_POSIX_RENAME, SFTP_EXT_STATVFS, SFTP_EXT_FSTATVFS]
  cases (n == "posix-rename@openssh.com" && v == "1") <;>
    cases (n == "statvfs@openssh.com" && v == "2") <;>
      cases (n == "fstatvfs@openssh.com" && v == "2") <;>
        simp [Nat.testBit_or, h1, h2, h4]

theorem foldl_extStep_zero (ps : List (String × String)) (e : Nat) :
    ((ps.foldl extStep e).testBit 0 = true) ↔
      (e.testBit 0 = true ∨ ("posix-rename@openssh.com", "1") ∈ ps) := by
  induction ps generalizing e with
  | nil => simp
  | cons p ps ih =>
    rw [List.foldl_cons, ih, extStep_testBit_zero]
    simp only [List.mem_cons]
    constructor
    · rintro (h | h | h) <;> tauto
    · rintro (h | h | h)
      · tauto
      · exact Or.inl (Or.inr h.symm)
      · tauto

theorem foldl_extStep_one (ps : List (String × String)) (e : Nat) :
    ((ps.foldl extStep e).testBit 1 = true) ↔
      (e.testBit 1 = true ∨ ("statvfs@openssh.com", "2") ∈ ps) := by
  induction ps generalizing e with
  | nil => simp
  | cons p ps ih =>
    rw [List.foldl_cons, ih, extStep_testBit_one]
    simp only [List.mem_cons]
    constructor
    · rintro (h | h | h) <;> tauto
    · rintro (h | h | h)
      · tauto
      · exact Or.inl (Or.inr h.symm)
      · tauto

theorem foldl_extStep_two (ps : List (String × String)) (e : Nat) :
    ((ps.foldl extStep e).testBit 2 = true) ↔
      (e.testBit 2 = true ∨ ("fstatvfs@openssh.com", "2") ∈ ps) := by
  induction ps generalizing e with
  | nil => simp
  | cons p ps ih =>
    rw [List.foldl_cons, ih, extStep_testBit_two]
    simp only [List.mem_cons]
    constructor
    · rintro (h | h | h) <;> tauto
    · rintro (h | h | h)
      · tauto
      · exact Or.inl (Or.inr h.symm)
      · tauto

theorem foldl_extStep_high (ps : List (String × String)) (e : Nat) (i : Nat) :
    (ps.foldl extStep e).testBit (i + 3) = e.testBit (i + 3) := by
  induction ps generalizing e with
  | nil => rfl
  | cons p ps ih => rw [List.foldl_cons, ih, extStep_testBit_high]

/-- C3: for every VERSION reply body, the handshake sets the POSIX_RENAME bit
(bit 0, `SFTP_EXT_POSIX_RENAME`) iff a pair
`("posix-rename@openssh.com", "1")` appears among the extension pairs, the
STATVFS bit (bit 1) iff `("statvfs@openssh.com", "2")` appears, and the
FSTATVFS bit (bit 2) iff `("fstatvfs@openssh.com", "2")` appears; every other
(name, value) pair is ignored and sets no bit (all bits above 2 stay clear). -/
theorem extension_negotiation (ps : List (String × String)) :
    ((parseExts ps).testBit 0 = true ↔ ("posix-rename@openssh.com", "1") ∈ ps) ∧
    ((parseExts ps).testBit 1 = true ↔ ("statvfs@openssh.com", "2") ∈ ps) ∧
    ((parseExts ps).testBit 2 = true ↔ ("fstatvfs@openssh.com", "2") ∈ ps) ∧
    (∀ i : Nat, (parseExts ps).testBit (i + 3) = false) := by
  refine ⟨?_, ?_, ?_, ?_⟩
  · rw [parseExts, foldl_extStep_zero]
    simp
  · rw [parseExts, foldl_extStep_one]
    simp
  · rw [parseExts, foldl_extStep_two]
    simp
  · intro i
    rw [parseExts, foldl_extStep_high]
    exact Nat.zero_testBit _

/-! ## Single-shot request/reply operations -/

/-- The header of a decoded reply message together with its status payload,
as read by `get_status` (lines 149-179). -/
structure StatusReply where
  rtype : Nat
  rid : Nat
  status : Nat
deriving Repr, DecidableEq

/-- `get_status` (lines 149-179): 255 when the message could not be read
(`none`), on an id mismatch against the expected (pre-increment) id, or on a
non-STATUS type; otherwise the status word of the reply. -/
def get_status (reply : Option StatusReply) (expected_id : Nat) : Nat :=
  match reply with
  | none => 255
  | some m =>
    if m.rid ≠ expected_id then 255
    else if m.rtype ≠ SSH2_FXP_STATUS then 255
    else m.status

/-- `id = conn->msg_id++`: return the current counter value and advance it. -/
def nextId (conn : SftpConn) : Nat × SftpConn :=
  (conn.msg_id, { conn with msg_id := conn.msg_id + 1 })

/-- The ids handed out by `n` successive `conn->msg_id++` acquisitions, with
the connection threaded through. -/
def acquireIds : SftpConn → Nat → List Nat × SftpConn
  | conn, 0 => ([], conn)
  | conn, n + 1 =>
    let (i, conn1) := nextId conn
    let (rest, conn2) := acquireIds conn1 n
    (i :: rest, conn2)

/-- `do_close` (lines 379-401): acquire `id = msg_id++`, send
`FXP_CLOSE(id, handle)`, and match the reply with `get_status` against the
pre-increment id.  Returns the sent message, the status result, and the
updated connection. -/
def do_close (conn : SftpConn) (handle : String) (reply : Option StatusReply) :
    List WireField × Nat × SftpConn :=
  let (id, conn1) := nextId conn
  ([.w8 SSH2_FXP_CLOSE, .w32 id, .wstr handle], get_status reply id, conn1)

/-- The WRITE ids handed out inside `do_upload`'s loop: `ack->id = ++id`
(line 1247) on the *local* copy of the OPEN request's id, one per non-empty
local read, without touching `conn->msg_id` (this is the `st.id + 1` step of
`ulStates`). -/
def uploadWriteIds (idv : Nat) : Nat → List Nat
  | 0 => []
  | n + 1 => (idv + 1) :: uploadWriteIds (idv + 1) n

/-- The request ids one complete `do_upload` call with `nwrites` non-empty
local reads puts on the wire, in order, with the connection threaded
through: the OPEN takes `id = conn->msg_id++` (line 1203); each WRITE takes
`ack->id = ++id` on the local variable (line 1247), leaving `conn->msg_id`
untouched; with the preserve flag the FSETSTAT (line 1318) and then the
CLOSE (line 1320) each take `conn->msg_id++` again. -/
def do_upload_request_ids (conn : SftpConn) (nwrites : Nat) (pflag : Bool) :
    List Nat × SftpConn :=
  let (openId, conn1) := nextId conn
  let wids := uploadWriteIds openId nwrites
  if pflag then
    let (fsetstatId, conn2) := nextId conn1
    let (closeId, conn3) := nextId conn2
    (openId :: (wids ++ [fsetstatId, closeId]), conn3)
  else
    let (closeId, conn2) := nextId conn1
    (openId :: (wids ++ [closeId]), conn2)

theorem acquireIds_fst (n : Nat) :
    ∀ conn : SftpConn, (acquireIds conn n).1 = List.range' conn.msg_id n := by
  induction n with
  | zero => intro conn; rfl
  | succ n ih =>
    intro conn
    simp [acquireIds, nextId, ih, List.range'_succ]

theorem acquireIds_get (conn : SftpConn) (n k : Nat) (hk : k < n) :
    (acquireIds conn n).1.get? k = some (conn.msg_id + k) := by
  rw [acquireIds_fst, List.get?_eq_getElem?]
  simp [List.getElem?_range', hk]

theorem uploadWriteIds_eq_range' :
    ∀ n idv : Nat, uploadWriteIds idv n = List.range' (idv + 1) n := by
  intro n
  induction n with
  | zero => intro idv; rfl
  | succ n ih =>
    intro idv
    rw [uploadWriteIds, List.range'_succ, ih]

/-- C4 counterexample: the claim "every request acquires its id by
post-incrementing `msg_id` before sending, and the nth request carries id n"
is false.  On a fresh connection (`msg_id = 1`), an upload of two blocks
puts ids [1, 2, 3, 2] on the wire: the WRITE ids come from `ack->id = ++id`
(line 1247) on a local copy that never advances `conn->msg_id`, so the
fourth request — the upload's own CLOSE (line 1320) — reuses id 2 instead
of carrying id 4, and `msg_id` afterwards is 3, not 5. -/
theorem upload_ids_break_msg_id_monotonicity :
    (do_upload_request_ids ⟨32768, 64, 3, 1, 0⟩ 2 false).1 = [1, 2, 3, 2] ∧
    (do_upload_request_ids ⟨32768, 64, 3, 1, 0⟩ 2 false).1.get? 3 ≠ some 4 ∧
    (do_upload_request_ids ⟨32768, 64, 3, 1, 0⟩ 2 false).2.msg_id = 3 := by
  decide

/-- C4 (amended): on a fresh connection `msg_id` starts at 1, and replies
are matched against the pre-increment value (shown on `do_close`: the sent
CLOSE request carries the old `msg_id`, the counter advances by one, and a
reply with a different id is rejected with 255).  Every request that draws
its id from the connection — all single-shot operations and the download
READs — acquires it by post-incrementing `msg_id` before sending, so the nth
`msg_id`-acquired id is n.  Upload WRITE requests are the exception the code
carves out: they take successive ids `++id` from a local copy of the OPEN
request's id without advancing `conn->msg_id` (the kth WRITE of an upload
opened under id `m` carries `m + k`), so a whole upload advances `msg_id` by
only two — OPEN and CLOSE; three with the preserve flag — and its CLOSE
reuses the first WRITE's id. -/
theorem msg_id_discipline :
    (∀ tb nr : Nat, ∀ r : VersionReply, ∀ c : SftpConn,
        do_init tb nr (some r) = some c → c.msg_id = 1) ∧
    (∀ c : SftpConn, ∀ n k : Nat, c.msg_id = 1 → k < n →
        (acquireIds c n).1.get? k = some (k + 1)) ∧
    (∀ c : SftpConn, ∀ h : String, ∀ rep : Option StatusReply,
        (do_close c h rep).1 = [.w8 SSH2_FXP_CLOSE, .w32 c.msg_id, .wstr h] ∧
        (do_close c h rep).2.2.msg_id = c.msg_id + 1) ∧
    (∀ c : SftpConn, ∀ h : String, ∀ m : StatusReply,
        m.rid ≠ c.msg_id → (do_close c h (some m)).2.1 = 255) ∧
    (∀ c : SftpConn, ∀ nw : Nat,
        do_upload_request_ids c nw false =
          (c.msg_id :: (uploadWriteIds c.msg_id nw ++ [c.msg_id + 1]),
            { c with msg_id := c.msg_id + 2 })) ∧
    (∀ c : SftpConn, ∀ nw : Nat,
        do_upload_request_ids c nw true =
          (c.msg_id :: (uploadWriteIds c.msg_id nw ++ [c.msg_id + 1, c.msg_id + 2]),
            { c with msg_id := c.msg_id + 3 })) ∧
    (∀ idv n k : Nat, k < n →
        (uploadWriteIds idv n).get? k = some (idv + 1 + k)) := by
  refine ⟨?_, ?_, ?_, ?_, ?_, ?_, ?_⟩
  · intro tb nr r c hinit
    simp only [do_init] at hinit
    split at hinit
    · simp at hinit
    · split at hinit <;>
        (rw [Option.some_inj] at hinit; subst hinit; rfl)
  · intro c n k h1 hk
    rw [acquireIds_get c n k hk, h1, Nat.add_comm]
  · intro c h rep
    exact ⟨rfl, rfl⟩
  · intro c h m hne
    simp [do_close, nextId, get_status, hne]
  · intro c nw
    rfl
  · intro c nw
    rfl
  · intro idv n k hk
    rw [uploadWriteIds_eq_range', List.get?_eq_getElem?]
    simp [List.getElem?_range', hk]

/-- Closed witness for `msg_id_discipline`: a fresh connection built by
`do_init`, the third of five acquired ids, a mismatched CLOSE reply, and the
second WRITE id of an upload opened under id 1. -/
theorem msg_id_discipline_witness :
    (do_init 32768 64 (some ⟨2, 3, []⟩) =
        some ⟨32768, 64, 3, 1, 0⟩) ∧
    ((acquireIds ⟨32768, 64, 3, 1, 0⟩ 5).1.get? 2 = some 3) ∧
    ((do_close ⟨32768, 64, 3, 7, 0⟩ "h" (some ⟨101, 9, 0⟩)).2.1 = 255) ∧
    ((uploadWriteIds 1 2).get? 1 = some 3) := by
  refine ⟨by decide, ?_, ?_, ?_⟩
  · exact msg_id_discipline.2.1 ⟨32768, 64, 3, 1, 0⟩ 5 2 rfl (by decide)
  · exact msg_id_discipline.2.2.2.1 ⟨32768, 64, 3, 7, 0⟩ "h" ⟨101, 9, 0⟩ (by decide)
  · exact msg_id_discipline.2.2.2.2.2.2 1 2 1 (by decide)

/-- The request-emission half of `do_stat` (lines 593-605):
`send_string_request` with opcode `FXP_STAT_VERSION_0` when `version == 0`,
else `FXP_STAT`.  Returns the sent message and the updated connection; the
reply is decoded separately by `get_decode_stat`. -/
def do_stat_request (conn : SftpConn) (path : String) : List WireField × SftpConn :=
  let (id, conn1) := nextId conn
  ([.w8 (if conn.version = 0 then SSH2_FXP_STAT_VERSION_0 else SSH2_FXP_STAT),
    .w32 id, .wstr path], conn1)

/-- The request-emission half of `do_lstat` (lines 607-625): with
`version == 0` fall back to `do_stat` (no LSTAT request is formed), otherwise
send an `FXP_LSTAT` request. -/
def do_lstat_request (conn : SftpConn) (path : String) : List WireField × SftpConn :=
  if conn.version = 0 then
    do_stat_request conn path
  else
    let (id, conn1) := nextId conn
    ([.w8 SSH2_FXP_LSTAT, .w32 id, .wstr path], conn1)

/-- C7: on a connection with negotiated version 0, every `lstat` call sends a
STAT request — opcode `SSH2_FXP_STAT_VERSION_0 = 17` (v0 semantics, per the
spec's opcode table) — rather than an LSTAT request (opcode 7), and `do_init`
clamps `transfer_buflen` to at most 20480 at handshake. -/
theorem lstat_v0_fallback :
    (∀ c : SftpConn, ∀ p : String, c.version = 0 →
        do_lstat_request c p =
          ([.w8 17, .w32 c.msg_id, .wstr p],
            { c with msg_id := c.msg_id + 1 }) ∧
        SSH2_FXP_STAT_VERSION_0 = 17 ∧ SSH2_FXP_LSTAT ≠ 17) ∧
    (∀ tb nr : Nat, ∀ r : VersionReply, ∀ c : SftpConn, r.version = 0 →
        do_init tb nr (some r) = some c → c.transfer_buflen ≤ 20480) := by
  constructor
  · intro c p hv
    refine ⟨?_, rfl, by decide⟩
    simp [do_lstat_request, do_stat_request, nextId, hv,
      SSH2_FXP_STAT_VERSION_0]
  · intro tb nr r c hv hinit
    simp only [do_init, hv, reduceIte] at hinit
    split at hinit
    · simp at hinit
    · rw [Option.some_inj] at hinit
      subst hinit
      exact min_le_right _ _

/-- Closed witness for `lstat_v0_fallback`: a version-0 connection and a
version-0 handshake with an oversized requested buffer. -/
theorem lstat_v0_fallback_witness :
    (do_lstat_request ⟨32768, 64, 0, 5, 0⟩ "/p" =
      ([.w8 17, .w32 5, .wstr "/p"], ⟨32768, 64, 0, 6, 0⟩)) ∧
    (do_init 32768 64 (some ⟨2, 0, []⟩) = some ⟨20480, 64, 0, 1, 0⟩) ∧
    (20480 : Nat) ≤ 20480 := by
  refine ⟨(lstat_v0_fallback.1 ⟨32768, 64, 0, 5, 0⟩ "/p" rfl).1, by decide, ?_⟩
  exact lstat_v0_fallback.2 32768 64 ⟨2, 0, []⟩ ⟨20480, 64, 0, 1, 0⟩ rfl (by decide)

/-! ## statvfs (`do_statvfs`, lines 846-870) -/

/-- The parsed `struct sftp_statvfs` filled by `get_decode_statvfs`. -/
structure SftpStatvfs where
  f_bsize : Nat
  f_frsize : Nat
  f_blocks : Nat
  f_bfree : Nat
  f_bavail : Nat
  f_files : Nat
  f_ffree : Nat
  f_favail : Nat
  f_fsid : Nat
  f_flag : Nat
  f_namemax : Nat
deriving Repr, DecidableEq

/-- Modelled from the spec: the server's statvfs flag bits of spec §6
(`0x1 = ST_RDONLY, 0x2 = ST_NOSUID`); `sftp.h` is missing. -/
def SSH2_FXE_STATVFS_ST_RDONLY : Nat := 1
def SSH2_FXE_STATVFS_ST_NOSUID : Nat := 2

/-- The POSIX `ST_RDONLY` / `ST_NOSUID` mount-flag values; platform
dependent, modelled as 1 and 2. -/
def ST_RDONLY : Nat := 1
def ST_NOSUID : Nat := 2

/-- A decoded reply to the statvfs extended request, as examined by
`get_decode_statvfs` (lines 246-295): eleven u64 fields on the wire for an
`FXP_EXTENDED_REPLY`. -/
inductive VfsReply where
  | statusRep (rid : Nat) (status : Nat)
  | extendedReply (rid : Nat) (bsize frsize blocks bfree bavail files ffree
      favail fsid flag namemax : Nat)
  | other (rtype : Nat) (rid : Nat)
deriving Repr, DecidableEq

/-- `get_decode_statvfs` (lines 246-295): `none` models the `fatal` paths (id
mismatch, unexpected type); `some (-1, none)` an SFTP status error;
`some (0, some st)` a decoded reply, with the flag word translated to the
local `ST_*` bits. -/
def get_decode_statvfs (reply : VfsReply) (expected_id : Nat) :
    Option (Int × Option SftpStatvfs) :=
  match reply with
  | .statusRep rid _ =>
    if rid ≠ expected_id then none else some (-1, none)
  | .extendedReply rid bsize frsize blocks bfree bavail files ffree favail
      fsid flag namemax =>
    if rid ≠ expected_id then none
    else
      let f := (if flag &&& SSH2_FXE_STATVFS_ST_RDONLY ≠ 0 then ST_RDONLY else 0) |||
        (if flag &&& SSH2_FXE_STATVFS_ST_NOSUID ≠ 0 then ST_NOSUID else 0)
      some (0, some ⟨bsize, frsize, blocks, bfree, bavail, files, ffree,
        favail, fsid, f, namemax⟩)
  | .other _ rid =>
    if rid ≠ expected_id then none else none

/-- `do_statvfs` (lines 846-870): if the STATVFS extension was not
negotiated, return -1 immediately; otherwise acquire an id, send the
`FXP_EXTENDED "statvfs@openssh.com"` request and decode the reply.  The
second component lists every message written to the outbound stream. -/
def do_statvfs (conn : SftpConn) (path : String) (reply : VfsReply) :
    Option (Int × Option SftpStatvfs) × List (List WireField) × SftpConn :=
  if conn.exts &&& SFTP_EXT_STATVFS = 0 then
    (some (-1, none), [], conn)
  else
    let (id, conn1) := nextId conn
    (get_decode_statvfs reply id,
      [[.w8 SSH2_FXP_EXTENDED, .w32 id, .wstr "statvfs@openssh.com", .wstr path]],
      conn1)

/-- C9: calling `statvfs` on a connection whose negotiated extension set
lacks the STATVFS bit returns failure (-1) with no bytes written to the
outbound stream and with `msg_id` (hence the whole connection) unchanged. -/
theorem statvfs_extension_gating (c : SftpConn) (p : String) (reply : VfsReply)
    (hext : c.exts &&& SFTP_EXT_STATVFS = 0) :
    do_statvfs c p reply = (some (-1, none), [], c) := by
  simp [do_statvfs, hext]

/-- Closed witness for `statvfs_extension_gating`: a connection that only
negotiated POSIX_RENAME. -/
theorem statvfs_extension_gating_witness :
    (⟨32768, 64, 3, 9, 1⟩ : SftpConn).exts &&& SFTP_EXT_STATVFS = 0 ∧
    do_statvfs ⟨32768, 64, 3, 9, 1⟩ "/" (.statusRep 9 4) =
      (some (-1, none), [], ⟨32768, 64, 3, 9, 1⟩) :=
  ⟨by decide, statvfs_extension_gating ⟨32768, 64, 3, 9, 1⟩ "/"
    (.statusRep 9 4) (by decide)⟩

/-! ## Download preamble (`do_download`, lines 917-978) -/

/-- The POSIX `S_ISREG` macro: the file-type bits of the mode equal
`S_IFREG` (`0o100000` of `S_IFMT = 0o170000`). -/
def S_ISREG (m : Nat) : Bool :=
  m &&& 61440 == 32768

/-- `attrib_clear` (in `sftp-common.c`, not in the source tree): the empty
attribute record sent with the download OPEN request — flags 0, all fields
0 per spec §4.6 "empty-attrs". -/
def attrib_clear : Attrib := ⟨0, 0, 0, 0, 0, 0, 0⟩

/-- The stat-check-and-open preamble of `do_download` (lines 939-978): the
result of the remote stat decides whether the function returns -1 before any
`FXP_OPEN` is sent.  Returns the local mode chosen (when it proceeds), the
messages written to the outbound stream after the stat exchange, and the
updated connection. -/
def download_start (conn : SftpConn) (remote_path : String)
    (statResult : Option Attrib) :
    Option Nat × List (List WireField) × SftpConn :=
  match statResult with
  | none => (none, [], conn)
  | some a =>
    let mode :=
      if a.flags &&& SSH2_FILEXFER_ATTR_PERMISSIONS ≠ 0 then a.perm &&& 511
      else 438
    if a.flags &&& SSH2_FILEXFER_ATTR_PERMISSIONS ≠ 0 ∧ ¬ S_ISREG a.perm then
      (none, [], conn)
    else
      let (id, conn1) := nextId conn
      (some mode,
        [[.w8 SSH2_FXP_OPEN, .w32 id, .wstr remote_path, .w32 SSH2_FXF_READ,
          .wattr attrib_clear]],
        conn1)

/-- C8: download requires the server-side stat to succeed and to report a
regular file — if stat fails, or the stat reply reports (via the PERMISSIONS
flag) a non-regular file, `do_download` returns an error with no `FXP_OPEN`
request sent and no id consumed; when it proceeds the local mode is
`a.perm &&& 0o777` if permissions were reported, else `0o666 = 438`. -/
theorem download_stat_precondition (c : SftpConn) (p : String) :
    (download_start c p none = (none, [], c)) ∧
    (∀ a : Attrib, a.flags &&& SSH2_FILEXFER_ATTR_PERMISSIONS ≠ 0 →
        S_ISREG a.perm = false →
        download_start c p (some a) = (none, [], c)) ∧
    (∀ a : Attrib, ∀ m : Nat, (download_start c p (some a)).1 = some m →
        m = if a.flags &&& SSH2_FILEXFER_ATTR_PERMISSIONS ≠ 0
          then a.perm &&& 511 else 438) := by
  refine ⟨rfl, ?_, ?_⟩
  · intro a hperm hreg
    simp [download_start, hperm, hreg]
  · intro a m hm
    simp only [download_start, nextId] at hm
    split at hm
    · simp at hm
    · simpa using hm.symm

/-- Closed witness for `download_stat_precondition`: an attrib reporting a
directory (mode `0o40755`), and one reporting a regular file
(mode `0o100644`). -/
theorem download_stat_precondition_witness :
    (download_start ⟨32768, 64, 3, 4, 0⟩ "/d" (some ⟨4, 0, 0, 0, 16877, 0, 0⟩) =
      (none, [], ⟨32768, 64, 3, 4, 0⟩)) ∧
    ((420 : Nat) = if (4 : Nat) &&& SSH2_FILEXFER_ATTR_PERMISSIONS ≠ 0
      then (33188 : Nat) &&& 511 else 438) := by
  constructor
  · exact (download_stat_precondition ⟨32768, 64, 3, 4, 0⟩ "/d").2.1
      ⟨4, 0, 0, 0, 16877, 0, 0⟩ (by decide) (by decide)
  · exact (download_stat_precondition ⟨32768, 64, 3, 4, 0⟩ "/d").2.2
      ⟨4, 0, 0, 0, 33188, 0, 0⟩ 420 (by decide)

/-! ## Upload attribute normalization (`do_upload`, lines 1188-1198) -/

/-- The attribute-normalization step of `do_upload` (lines 1188-1198),
performed before the OPEN request is built.  When the caller supplied a
record (`remote_attribs = some ra`) the C code mutates that record through
the caller's pointer, so the returned record is exactly what the caller's
record holds after `do_upload` returns; with `none` a fresh record derived
from the local `fstat` (`sb_attrib`) is used instead.  The bit-clears
`flags &= ~SSH2_FILEXFER_ATTR_SIZE` etc. are 32-bit operations, modelled
with their 32-bit mask constants. -/
def upload_normalize_attrib (remote_attribs : Option Attrib) (sb_attrib : Attrib)
    (pflag : Bool) : Attrib :=
  let ra := remote_attribs.getD sb_attrib
  let ra := { ra with flags := ra.flags &&& 4294967294 }
  let ra := { ra with flags := ra.flags &&& 4294967293 }
  let ra := { ra with perm := ra.perm &&& 511 }
  if !pflag then { ra with flags := ra.flags &&& 4294967287 } else ra

/-- C10: for every upload with a caller-supplied attribute record, the record
the caller sees after the call (which `do_upload` mutated in place before
sending OPEN) has its SIZE flag (bit 0) and UIDGID flag (bit 1) cleared, its
permissions masked to the low 9 bits, its ACMODTIME flag (bit 3) cleared
unless the preserve flag is set, and every other 32-bit flag bit
untouched. -/
theorem upload_mutates_caller_attrib (ra sb : Attrib) (pflag : Bool) :
    ((upload_normalize_attrib (some ra) sb pflag).flags.testBit 0 = false) ∧
    ((upload_normalize_attrib (some ra) sb pflag).flags.testBit 1 = false) ∧
    ((upload_normalize_attrib (some ra) sb pflag).perm = ra.perm &&& 511) ∧
    ((upload_normalize_attrib (some ra) sb pflag).flags.testBit 3 =
      (pflag && ra.flags.testBit 3)) ∧
    (∀ i : Nat, i < 32 → i ≠ 0 → i ≠ 1 → i ≠ 3 →
      (upload_normalize_attrib (some ra) sb pflag).flags.testBit i =
        ra.flags.testBit i) := by
  have hb : ∀ i : Fin 32,
      (Nat.testBit 4294967294 i.1 = decide (i.1 ≠ 0)) ∧
      (Nat.testBit 4294967293 i.1 = decide (i.1 ≠ 1)) ∧
      (Nat.testBit 4294967287 i.1 = decide (i.1 ≠ 3)) := by decide
  refine ⟨?_, ?_, ?_, ?_, ?_⟩
  · cases pflag <;>
      simp [upload_normalize_attrib, Nat.testBit_and,
        (by decide : Nat.testBit 4294967294 0 = false)]
  · cases pflag <;>
      simp [upload_normalize_attrib, Nat.testBit_and,
        (by decide : Nat.testBit 4294967293 1 = false)]
  · cases pflag <;> simp [upload_normalize_attrib]
  · cases pflag <;>
      simp [upload_normalize_attrib, Nat.testBit_and,
        (by decide : Nat.testBit 4294967294 3 = true),
        (by decide : Nat.testBit 4294967293 3 = true),
        (by decide : Nat.testBit 4294967287 3 = false)]
  · intro i hi hi0 hi1 hi3
    have h := hb ⟨i, hi⟩
    simp only [] at h
    cases pflag <;>
      simp [upload_normalize_attrib, Nat.testBit_and, h.1, h.2.1, h.2.2,
        hi0, hi1, hi3]

/-- Closed witness for `upload_mutates_caller_attrib`: a record with all four
low flag bits and full mode `0o100644`, uploaded without preserve; bit 2
(PERMISSIONS) survives. -/
theorem upload_mutates_caller_attrib_witness :
    ((2 : Nat) < 32 ∧ (2 : Nat) ≠ 0 ∧ (2 : Nat) ≠ 1 ∧ (2 : Nat) ≠ 3) ∧
    (upload_normalize_attrib (some ⟨15, 9, 5, 5, 33188, 7, 8⟩)
        ⟨0, 0, 0, 0, 0, 0, 0⟩ false).flags.testBit 2 =
      (15 : Nat).testBit 2 := by
  refine ⟨⟨by decide, by decide, by decide, by decide⟩, ?_⟩
  exact (upload_mutates_caller_attrib ⟨15, 9, 5, 5, 33188, 7, 8⟩
    ⟨0, 0, 0, 0, 0, 0, 0⟩ false).2.2.2.2 2 (by decide) (by decide) (by decide)
    (by decide)

/-! ## Directory listing (`do_lsreaddir`, lines 404-525)

The `interrupted` flag is a process-global `volatile sig_atomic_t` set by a
SIGINT handler and polled by the loop.  It is modelled as a schedule
`sched : Nat → Bool` of the values read at successive polls, with the polls
numbered 0, 1, 2, …: one poll at the top of each `for (; !interrupted;)`
iteration and one at the final "don't return partial matches" check
(line 518).  A signal flag is never cleared during the call, which is the
monotonicity hypothesis `InterruptMono`. -/

/-- One `SFTP_DIRENT` (filename, `ls -l` longname, attributes). -/
structure SftpDirent where
  filename : String
  longname : String
  a : Attrib
deriving Repr, DecidableEq

/-- The `strchr(filename, '/') == NULL` filter of lines 493-497: an entry
survives iff its filename contains no '/'. -/
def entryOk (e : SftpDirent) : Bool :=
  !(e.filename.data.contains '/')

/-- One reply to an `FXP_READDIR` request: a NAME reply carrying `count`
entries, or a STATUS reply. -/
inductive ReaddirReply where
  | nameList (entries : List SftpDirent)
  | statusRep (status : Nat)
deriving Repr, DecidableEq

/-- The outcome of `do_lsreaddir`'s loop: a `return` carrying the status
result, the entry list the caller's `dir` points to, and the number of
interrupt polls performed; or the `fatal` aborts (id mismatch, non-NAME
non-STATUS reply, reply shortage). -/
inductive LsResult where
  | ret (status : Nat) (dir : List SftpDirent) (tend : Nat)
  | fatalStop
deriving Repr, DecidableEq

/-- The fall-through tail of `do_lsreaddir` (lines 513-524): close the
handle, then poll `interrupted` once more and discard the accumulated
entries if it is set. -/
def finishReaddir (sched : Nat → Bool) (t : Nat) (acc : List SftpDirent) :
    LsResult :=
  if sched t then .ret 0 [] (t + 1) else .ret 0 acc (t + 1)

/-- The `for (; !interrupted;)` loop of `do_lsreaddir` (lines 432-511), one
READDIR round per reply: poll the interrupt flag, send `FXP_READDIR`, read
the reply; a STATUS EOF or an empty NAME reply breaks to the fall-through
tail, another STATUS returns it as the error result with the partial `dir`
(lines 462-468), and a non-empty NAME reply appends the entries whose
filenames contain no '/', in order. -/
def lsreaddirLoop (sched : Nat → Bool) (replies : List ReaddirReply) (t : Nat)
    (acc : List SftpDirent) : LsResult :=
  if sched t then finishReaddir sched (t + 1) acc
  else
    match replies with
    | [] => .fatalStop
    | .statusRep s :: _ =>
      if s = SSH2_FX_EOF then finishReaddir sched (t + 1) acc
      else .ret s acc (t + 1)
    | .nameList es :: rest =>
      if es.length = 0 then finishReaddir sched (t + 1) acc
      else lsreaddirLoop sched rest (t + 1) (acc ++ es.filter entryOk)

/-- `do_lsreaddir` after a successful OPENDIR: run the loop with an empty
accumulator from poll 0. -/
def do_lsreaddir (sched : Nat → Bool) (replies : List ReaddirReply) : LsResult :=
  lsreaddirLoop sched replies 0 []

/-- A signal flag is set at most once and never cleared during the call:
once a poll reads true, every later poll reads true. -/
def InterruptMono (sched : Nat → Bool) : Prop :=
  ∀ i j : Nat, i ≤ j → sched i = true → sched j = true

theorem lsreaddirLoop_entryOk (sched : Nat → Bool) (replies : List ReaddirReply) :
    ∀ t : Nat, ∀ acc : List SftpDirent, ∀ st : Nat, ∀ dir : List SftpDirent,
      ∀ tend : Nat, (∀ e ∈ acc, entryOk e = true) →
      lsreaddirLoop sched replies t acc = .ret st dir tend →
      ∀ e ∈ dir, entryOk e = true := by
  induction replies with
  | nil =>
    intro t acc st dir tend hacc hret
    rw [lsreaddirLoop] at hret
    split at hret
    · rw [finishReaddir] at hret
      split at hret <;> (rw [LsResult.ret.injEq] at hret; rw [← hret.2.1])
      · intro e he
        exact absurd he (List.not_mem_nil e)
      · exact hacc
    · exact absurd hret (by simp)
  | cons r rest ih =>
    intro t acc st dir tend hacc hret
    rw [lsreaddirLoop.eq_def] at hret
    split at hret
    · rw [finishReaddir] at hret
      split at hret <;> (rw [LsResult.ret.injEq] at hret; rw [← hret.2.1])
      · intro e he
        exact absurd he (List.not_mem_nil e)
      · exact hacc
    · match r with
      | .statusRep s =>
        simp only at hret
        split at hret
        · rw [finishReaddir] at hret
          split at hret <;> (rw [LsResult.ret.injEq] at hret; rw [← hret.2.1])
          · intro e he
            exact absurd he (List.not_mem_nil e)
          · exact hacc
        · rw [LsResult.ret.injEq] at hret
          rw [← hret.2.1]
          exact hacc
      | .nameList es =>
        simp only at hret
        split at hret
        · rw [finishReaddir] at hret
          split at hret <;> (rw [LsResult.ret.injEq] at hret; rw [← hret.2.1])
          · intro e he
            exact absurd he (List.not_mem_nil e)
          · exact hacc
        · refine ih (t + 1) (acc ++ es.filter entryOk) st dir tend ?_ hret
          intro e he
          rcases List.mem_append.mp he with h | h
          · exact hacc e h
          · exact (List.mem_filter.mp h).2

/-- C5: no directory entry returned by readdir has a filename containing
'/'; and a NAME reply's surviving entries are appended in order — the loop
step on a non-empty NAME reply appends exactly `es.filter entryOk` (the
entries whose filenames contain no '/', in their original order) and keeps
everything already accumulated. -/
theorem readdir_entry_safety :
    (∀ sched : Nat → Bool, ∀ replies : List ReaddirReply, ∀ st : Nat,
      ∀ dir : List SftpDirent, ∀ tend : Nat,
      do_lsreaddir sched replies = .ret st dir tend →
      ∀ e ∈ dir, (e.filename.data.contains '/') = false) ∧
    (∀ sched : Nat → Bool, ∀ es : List SftpDirent, ∀ rest : List ReaddirReply,
      ∀ t : Nat, ∀ acc : List SftpDirent, sched t = false → es ≠ [] →
      lsreaddirLoop sched (.nameList es :: rest) t acc =
        lsreaddirLoop sched rest (t + 1) (acc ++ es.filter entryOk)) := by
  constructor
  · intro sched replies st dir tend hret e he
    have h := lsreaddirLoop_entryOk sched replies 0 [] st dir tend
      (by intro e he; exact absurd he (List.not_mem_nil e)) hret e he
    simpa [entryOk] using h
  · intro sched es rest t acc hs hes
    rw [lsreaddirLoop, hs]
    simp only [Bool.false_eq_true, if_false]
    rw [if_neg (by simpa using hes)]

/-- Closed witness for `readdir_entry_safety`: a run whose NAME reply holds a
benign entry and a hostile `"../x"` entry; only the benign one is kept. -/
theorem readdir_entry_safety_witness :
    (do_lsreaddir (fun _ => false)
        [.nameList [⟨"a", "la", attrib_clear⟩, ⟨"../x", "lx", attrib_clear⟩],
          .statusRep 1] =
      .ret 0 [⟨"a", "la", attrib_clear⟩] 3) ∧
    ((⟨"a", "la", attrib_clear⟩ : SftpDirent).filename.data.contains '/') = false := by
  constructor
  · decide
  · exact (readdir_entry_safety.1 (fun _ => false)
      [.nameList [⟨"a", "la", attrib_clear⟩, ⟨"../x", "lx", attrib_clear⟩],
        .statusRep 1] 0 [⟨"a", "la", attrib_clear⟩] 3 (by decide))
      ⟨"a", "la", attrib_clear⟩ (by decide)

theorem lsreaddirLoop_interrupt (sched : Nat → Bool) (hmono : InterruptMono sched)
    (replies : List ReaddirReply) :
    ∀ t : Nat, ∀ acc : List SftpDirent, ∀ st : Nat, ∀ dir : List SftpDirent,
      ∀ tend : Nat, lsreaddirLoop sched replies t acc = .ret st dir tend →
      ∀ u : Nat, t ≤ u → u < tend → sched u = true → dir = [] := by
  induction replies with
  | nil =>
    intro t acc st dir tend hret u htu hutend hu
    rw [lsreaddirLoop] at hret
    split at hret
    · rename_i ht
      rw [finishReaddir, if_pos (hmono t (t + 1) (by omega) ht)] at hret
      rw [LsResult.ret.injEq] at hret
      exact hret.2.1.symm
    · exact absurd hret (by simp)
  | cons r rest ih =>
    intro t acc st dir tend hret u htu hutend hu
    rw [lsreaddirLoop.eq_def] at hret
    split at hret
    · rename_i ht
      rw [finishReaddir, if_pos (hmono t (t + 1) (by omega) ht)] at hret
      rw [LsResult.ret.injEq] at hret
      exact hret.2.1.symm
    · rename_i ht
      have htu1 : t + 1 ≤ u := by
        rcases Nat.eq_or_lt_of_le htu with h | h
        · exact absurd (h ▸ hu) (by simp [ht])
        · omega
      match r with
      | .statusRep s =>
        simp only at hret
        split at hret
        · rw [finishReaddir] at hret
          split at hret <;> rw [LsResult.ret.injEq] at hret
          · exact hret.2.1.symm
          · rename_i ht1
            have : u = t + 1 := by omega
            exact absurd (this ▸ hu) (by simp [ht1])
        · rw [LsResult.ret.injEq] at hret
          omega
      | .nameList es =>
        simp only at hret
        split at hret
        · rw [finishReaddir] at hret
          split at hret <;> rw [LsResult.ret.injEq] at hret
          · exact hret.2.1.symm
          · rename_i ht1
            have : u = t + 1 := by omega
            exact absurd (this ▸ hu) (by simp [ht1])
        · exact ih (t + 1) (acc ++ es.filter entryOk) st dir tend hret u htu1
            hutend hu

/-- C6: if the interrupt flag (a sticky signal flag, `InterruptMono`) reads
true at any poll a readdir performs — polls 0, …, tend-1 of the returned
execution — the entry list returned to the caller is empty: partial results
accumulated before the interrupt are discarded. -/
theorem readdir_interrupt_empty (sched : Nat → Bool) (hmono : InterruptMono sched)
    (replies : List ReaddirReply) (st : Nat) (dir : List SftpDirent)
    (tend : Nat) (hret : do_lsreaddir sched replies = .ret st dir tend)
    (u : Nat) (hu : u < tend) (hsched : sched u = true) : dir = [] :=
  lsreaddirLoop_interrupt sched hmono replies 0 [] st dir tend hret u
    (Nat.zero_le u) hu hsched

/-- Closed witness for `readdir_interrupt_empty`: the flag becomes true at
poll 1, after a first NAME reply was already accumulated; the returned list
is empty. -/
theorem readdir_interrupt_empty_witness :
    (do_lsreaddir (fun t => decide (1 ≤ t))
        [.nameList [⟨"a", "la", attrib_clear⟩], .statusRep 1] =
      .ret 0 [] 3) ∧ ([] : List SftpDirent) = [] := by
  constructor
  · decide
  · exact readdir_interrupt_empty (fun t => decide (1 ≤ t))
      (by intro i j hij hi; simp only [decide_eq_true_eq] at hi ⊢; omega)
      [.nameList [⟨"a", "la", attrib_clear⟩], .statusRep 1] 0 [] 3 (by decide)
      1 (by decide) (by decide)

/-! ## Download loop (`do_download`, lines 993-1110)

The loop's state is the local variables of `do_download` plus the TAILQ of
`struct request`s.  Each loop iteration reads `interrupted` once at the top
and receives one reply; an execution is therefore driven by a trace of
`(interrupt reading, reply)` events.  `sent` logs every `send_read_request`
call.  The local `lseek`/`atomicio(vwrite, ...)` outcome is injected into the
DATA event as `writeOk`. -/

/-- One `struct request` (lines 928-933): request id, requested length, file
offset. -/
structure DlRequest where
  id : Nat
  len : Nat
  offset : Nat
deriving Repr, DecidableEq

/-- The mutable state of `do_download`'s transfer loop. -/
structure DlState where
  buflen : Nat
  num_req : Nat
  max_req : Nat
  offset : Nat
  msg_id : Nat
  requests : List DlRequest
  sent : List DlRequest
  read_error : Bool
  write_error : Bool
  status : Nat
deriving Repr, DecidableEq

/-- One reply received by the loop (lines 1029-1031), with the local-write
outcome for a DATA reply injected as `writeOk`. -/
inductive DlReply where
  | statusRep (rid : Nat) (status : Nat)
  | dataRep (rid : Nat) (len : Nat) (writeOk : Bool)
deriving Repr, DecidableEq

/-- In-place update of the first queue element satisfying `p`, as the C code
does through the `req` pointer into the TAILQ. -/
def updateFirst (p : α → Bool) (f : α → α) : List α → List α
  | [] => []
  | x :: xs => if p x then f x :: xs else x :: updateFirst p f xs

/-- The `while (num_req < max_req)` request-issue loop (lines 1012-1026),
unrolled `n = max_req - num_req` times: allocate a request for
`[offset, offset + buflen)` under `msg_id++`, append it to the queue,
send it. -/
def fillLoop : Nat → DlState → DlState
  | 0, st => st
  | n + 1, st =>
    let req : DlRequest := { id := st.msg_id, len := st.buflen, offset := st.offset }
    fillLoop n { st with
      msg_id := st.msg_id + 1
      offset := st.offset + st.buflen
      num_req := st.num_req + 1
      requests := st.requests ++ [req]
      sent := st.sent ++ [req] }

def fill (st : DlState) : DlState :=
  fillLoop (st.max_req - st.num_req) st

/-- Processing of one received reply (lines 1029-1105).  `none` models the
`fatal` aborts: a reply id matching no queued request, a DATA reply longer
than requested, or (implicitly) a non-STATUS non-DATA type.  A STATUS reply
latches `read_error` unless it is EOF and stops the window; a full-length
DATA reply retires its request; a short DATA reply re-issues the missing
tail under `msg_id++`, updating the queue entry in place, and shrinks
`buflen` to `max(MIN_READ_SIZE, len)` when `len < buflen`; afterwards the
window is clamped to 1 past the expected EOF or grown by 1 while
`max_req <= conn->num_requests` (line 1097). -/
def applyReply (size nrq : Nat) (rep : DlReply) (st : DlState) : Option DlState :=
  match rep with
  | .statusRep rid s =>
    match st.requests.find? (fun r => r.id == rid) with
    | none => none
    | some _ =>
      some { st with
        status := s
        read_error := st.read_error || decide (s ≠ SSH2_FX_EOF)
        max_req := 0
        requests := st.requests.eraseP (fun r => r.id == rid)
        num_req := st.num_req - 1 }
  | .dataRep rid len writeOk =>
    match st.requests.find? (fun r => r.id == rid) with
    | none => none
    | some req =>
      if req.len < len then none
      else
        let st1 :=
          if !writeOk && !st.write_error then
            { st with write_error := true, max_req := 0 }
          else st
        let st2 :=
          if len = req.len then
            { st1 with
              requests := st1.requests.eraseP (fun r => r.id == rid)
              num_req := st1.num_req - 1 }
          else
            { st1 with
              requests := updateFirst (fun r => r.id == rid)
                (fun r => { id := st1.msg_id, len := r.len - len,
                            offset := r.offset + len }) st1.requests
              msg_id := st1.msg_id + 1
              sent := st1.sent ++
                [{ id := st1.msg_id, len := req.len - len,
                   offset := req.offset + len }]
              buflen := if len < st1.buflen then max MIN_READ_SIZE len
                else st1.buflen }
        if 0 < st2.max_req then
          if 0 < size ∧ size < st2.offset then some { st2 with max_req := 1 }
          else if st2.max_req ≤ nrq then some { st2 with max_req := st2.max_req + 1 }
          else some st2
        else some st2

/-- Every state the `while (num_req > 0 || max_req > 0)` loop
(lines 997-1106) passes through, in order, driven by the event trace: the
state after the interrupt poll, the state after the request-issue loop, and
the state after the received reply is processed.  An exhausted trace, a
loop exit, or a `fatal` abort ends the list. -/
def dlStates (size nrq : Nat) : List (Bool × DlReply) → DlState → List DlState
  | [], _ => []
  | (intr, rep) :: rest, st =>
    if st.num_req = 0 ∧ st.max_req = 0 then []
    else if intr ∧ st.num_req = 0 then []
    else
      let st1 := if intr then { st with max_req := 0 } else st
      let st2 := fill st1
      match applyReply size nrq rep st2 with
      | none => [st1, st2]
      | some st3 => st1 :: st2 :: st3 :: dlStates size nrq rest st3

/-- The loop state as `do_download` enters the loop (lines 993-995): window
1, empty queue, `buflen = conn->transfer_buflen`, and `msg_id` already past
the OPEN request's id. -/
def dlInit (buflen msgid : Nat) : DlState :=
  { buflen := buflen, num_req := 0, max_req := 1, offset := 0, msg_id := msgid
    requests := [], sent := [], read_error := false, write_error := false
    status := 0 }

theorem fillLoop_props (n : Nat) :
    ∀ st : DlState, (fillLoop n st).num_req = st.num_req + n ∧
      (fillLoop n st).max_req = st.max_req ∧
      (fillLoop n st).buflen = st.buflen := by
  induction n with
  | zero => exact fun st => ⟨rfl, rfl, rfl⟩
  | succ n ih =>
    intro st
    rw [fillLoop]
    refine ⟨?_, ?_, ?_⟩
    · rw [(ih _).1]
      simp only []
      omega
    · rw [(ih _).2.1]
    · rw [(ih _).2.2]

theorem fill_num_req (st : DlState) :
    (fill st).num_req = max st.num_req st.max_req ∧
    (fill st).max_req = st.max_req ∧
    (fill st).buflen = st.buflen := by
  obtain ⟨h1, h2, h3⟩ := fillLoop_props (st.max_req - st.num_req) st
  rw [fill]
  exact ⟨by omega, h2, h3⟩

theorem applyReply_bounds (size nrq : Nat) (rep : DlReply) (st st' : DlState)
    (h : applyReply size nrq rep st = some st') :
    st'.num_req ≤ st.num_req ∧
    (st'.max_req ≤ st.max_req + 1 ∧
      (st.max_req ≤ nrq + 1 → st'.max_req ≤ nrq + 1)) ∧
    (st'.buflen ≤ max st.buflen MIN_READ_SIZE) ∧
    (MIN_READ_SIZE ≤ st.buflen → MIN_READ_SIZE ≤ st'.buflen ∧
      st'.buflen ≤ st.buflen) := by
  rcases rep with ⟨rid, s⟩ | ⟨rid, len, wok⟩ <;> simp only [applyReply] at h
  · split at h
    · exact absurd h (by simp)
    · rw [Option.some_inj] at h
      subst h
      refine ⟨?_, ⟨?_, ?_⟩, ?_, fun hb => ⟨?_, ?_⟩⟩ <;> simp only [] <;> omega
  · split at h
    · exact absurd h (by simp)
    · split at h
      · exact absurd h (by simp)
      · repeat' split at h
        all_goals
          first
          | exact Option.noConfusion h
          | (rw [Option.some_inj] at h
             subst h
             simp only [MIN_READ_SIZE] at *
             all_goals (refine ⟨?_, ⟨?_, ?_⟩, ?_, fun hb => ⟨?_, ?_⟩⟩ <;> omega))

theorem dlStates_window_bound (size nrq : Nat) (evs : List (Bool × DlReply)) :
    ∀ st : DlState, st.num_req ≤ nrq + 1 → st.max_req ≤ nrq + 1 →
      ∀ s ∈ dlStates size nrq evs st, s.num_req ≤ nrq + 1 ∧ s.max_req ≤ nrq + 1 := by
  induction evs with
  | nil =>
    intro st h1 h2 s hs
    exact absurd hs (List.not_mem_nil s)
  | cons ev rest ih =>
    rcases ev with ⟨intr, rep⟩
    intro st h1 h2 s hs
    rw [dlStates] at hs
    split at hs
    · exact absurd hs (List.not_mem_nil s)
    · split at hs
      · exact absurd hs (List.not_mem_nil s)
      · set st1 : DlState := (if intr then { st with max_req := 0 } else st) with hst1
        have h1' : st1.num_req ≤ nrq + 1 := by
          rw [hst1]; cases intr <;> simp_all
        have h2' : st1.max_req ≤ nrq + 1 := by
          rw [hst1]; cases intr <;> simp_all
        obtain ⟨hf1, hf2, _⟩ := fill_num_req st1
        have hfb1 : (fill st1).num_req ≤ nrq + 1 := by
          rw [hf1]; omega
        have hfb2 : (fill st1).max_req ≤ nrq + 1 := by
          rw [hf2]; omega
        simp only [] at hs
        cases happ : applyReply size nrq rep (fill st1) with
        | none =>
          rw [happ] at hs
          simp only [List.mem_cons, List.not_mem_nil, or_false] at hs
          rcases hs with rfl | rfl
          · exact ⟨h1', h2'⟩
          · exact ⟨hfb1, hfb2⟩
        | some st3 =>
          rw [happ] at hs
          simp only [List.mem_cons] at hs
          rcases hs with rfl | rfl | rfl | hs
          · exact ⟨h1', h2'⟩
          · exact ⟨hfb1, hfb2⟩
          · obtain ⟨hb1, ⟨_, hb2⟩, _⟩ := applyReply_bounds size nrq rep _ _ happ
            exact ⟨by omega, hb2 hfb2⟩
          · obtain ⟨hb1, ⟨_, hb2⟩, _⟩ := applyReply_bounds size nrq rep _ _ happ
            exact ih st3 (by omega) (hb2 hfb2) s hs

/-! ## Upload loop (`do_upload`, lines 1220-1299)

Each `for (;;)` iteration reads `interrupted` once, performs one local read,
and receives at most one STATUS reply; an execution is driven by a trace of
`(interrupt reading, local read length, reply)` events.  The C comparison
`id - ackid >= conn->num_requests` is 32-bit subtraction; whenever it is
evaluated the queue is non-empty, so `ackid ≤ id` and it coincides with the
truncated `Nat` subtraction used here. -/

/-- One `struct outstanding_ack` (lines 1159-1164). -/
structure UlAck where
  id : Nat
  offset : Nat
  len : Nat
deriving Repr, DecidableEq

/-- The mutable state of `do_upload`'s write loop. -/
structure UlState where
  id : Nat
  startid : Nat
  ackid : Nat
  offset : Nat
  acks : List UlAck
  status : Nat
deriving Repr, DecidableEq

/-- The state as the loop is entered (lines 1220-1224): `id` still holds the
OPEN request's id and `startid = ackid = id + 1`. -/
def ulInit (openId : Nat) : UlState :=
  { id := openId, startid := openId + 1, ackid := openId + 1, offset := 0
    acks := [], status := SSH2_FX_OK }

/-- Every state the upload loop passes through, in order: the state after the
local read and (for a non-empty read) the WRITE send with `id = ++id`
(lines 1245-1260), and the state after the conditional receive
(lines 1267-1295) and the `offset += len` step.  A loop break, a `fatal`
abort (non-STATUS reply, unmatched ack id), or an exhausted trace ends the
list.  Interrupt or a bad previous status force `len = 0` (line 1235); the
local read returns at most `transfer_buflen` bytes. -/
def ulStates (nrq tbuf : Nat) : List (Bool × Nat × StatusReply) → UlState → List UlState
  | [], _ => []
  | (intr, rl, rep) :: rest, st =>
    let len := if intr || decide (st.status ≠ SSH2_FX_OK) then 0 else min rl tbuf
    let st1 :=
      if len ≠ 0 then
        { st with id := st.id + 1
                  acks := st.acks ++ [{ id := st.id + 1, offset := st.offset, len := len }] }
      else st
    if len = 0 ∧ st1.acks = [] then [st1]
    else if st1.id = st1.startid ∨ len = 0 ∨ nrq ≤ st1.id - st1.ackid then
      if rep.rtype ≠ SSH2_FXP_STATUS then [st1]
      else
        match st1.acks.find? (fun a => a.id == rep.rid) with
        | none => [st1]
        | some _ =>
          let st2 := { st1 with
            status := rep.status
            acks := st1.acks.eraseP (fun a => a.id == rep.rid)
            ackid := st1.ackid + 1
            offset := st1.offset + len }
          st1 :: st2 :: ulStates nrq tbuf rest st2
    else
      let st2 := { st1 with offset := st1.offset + len }
      st1 :: st2 :: ulStates nrq tbuf rest st2

theorem ulStates_window_bound (nrq tbuf : Nat) (uevs : List (Bool × Nat × StatusReply)) :
    ∀ st : UlState, st.acks.length + st.ackid = st.id + 1 →
      st.id + 1 ≤ st.ackid + nrq →
      ∀ s ∈ ulStates nrq tbuf uevs st, s.id - s.ackid ≤ nrq := by
  induction uevs with
  | nil =>
    intro st hq1 hq2 s hs
    exact absurd hs (List.not_mem_nil s)
  | cons ev rest ih =>
    rcases ev with ⟨intr, rl, rep⟩
    intro st hq1 hq2 s hs
    rw [ulStates] at hs
    simp only [] at hs
    set len : Nat := (if intr || decide (st.status ≠ SSH2_FX_OK) then 0
      else min rl tbuf) with hlen
    set st1 : UlState := (if len ≠ 0 then
        { st with id := st.id + 1
                  acks := st.acks ++ [{ id := st.id + 1, offset := st.offset, len := len }] }
      else st) with hst1
    have hq1' : st1.acks.length + st1.ackid = st1.id + 1 := by
      rw [hst1]
      split
      · simp only [List.length_append, List.length_cons, List.length_nil]
        omega
      · omega
    have hq2' : st1.id ≤ st.ackid + nrq ∧ st.ackid = st1.ackid := by
      rw [hst1]
      split
      · constructor
        · simp only []
          omega
        · rfl
      · exact ⟨by omega, rfl⟩
    have hbound1 : st1.id - st1.ackid ≤ nrq := by omega
    cases hbr : (decide (len = 0 ∧ st1.acks = [])) with
    | true =>
      rw [if_pos (by simpa using hbr)] at hs
      simp only [List.mem_cons, List.not_mem_nil, or_false] at hs
      subst hs
      exact hbound1
    | false =>
      rw [if_neg (by simpa using hbr)] at hs
      split at hs
      · rename_i hrecv
        split at hs
        · simp only [List.mem_cons, List.not_mem_nil, or_false] at hs
          subst hs
          exact hbound1
        · cases hfind : st1.acks.find? (fun a => a.id == rep.rid) with
          | none =>
            rw [hfind] at hs
            simp only [List.mem_cons, List.not_mem_nil, or_false] at hs
            subst hs
            exact hbound1
          | some a =>
            rw [hfind] at hs
            simp only [List.mem_cons] at hs
            have hmem := List.mem_of_find?_eq_some hfind
            have hpa := List.find?_some hfind
            have herase : (st1.acks.eraseP (fun a => a.id == rep.rid)).length =
                st1.acks.length - 1 :=
              List.length_eraseP_of_mem hmem hpa
            have hnonempty : st1.acks.length ≠ 0 := by
              intro h0
              rw [List.length_eq_zero] at h0
              rw [h0] at hmem
              exact absurd hmem (List.not_mem_nil a)
            rcases hs with rfl | rfl | hs
            · exact hbound1
            · simp only []
              omega
            · refine ih _ ?_ ?_ s hs <;> simp only [herase] <;> omega
      · rename_i hnorecv
        simp only [List.mem_cons] at hs
        have hlt : st1.id - st1.ackid < nrq := by
          push_neg at hnorecv
          exact hnorecv.2.2
        rcases hs with rfl | rfl | hs
        · exact hbound1
        · simp only []
          omega
        · refine ih _ ?_ ?_ s hs <;> simp only [] <;> omega

/-- C1 counterexample: the claim "the number of outstanding read requests is
at most `num_requests`" is false.  With `num_requests = 1`, after one
fully-satisfied DATA reply the window-growth test `max_req <= num_requests`
(line 1097) raises `max_req` to 2 and the issue loop then keeps two requests
outstanding at once. -/
theorem download_window_exceeds_num_requests :
    ∃ s ∈ dlStates 0 1
        [(false, .dataRep 2 512 true), (false, .dataRep 3 512 true)]
        (dlInit 512 2),
      1 < s.num_req := by decide

/-- C1 (amended): at all times during download the number of outstanding
read requests is at most `num_requests + 1`, the window growing by at most 1
per fully-satisfied DATA reply up to `num_requests + 1` (the growth test at
line 1097 is `max_req <= conn->num_requests`, so `max_req` tops out at
`num_requests + 1`); and at all times during upload `id - ackid` is at most
`num_requests`. -/
theorem transfer_window_bound (size nrq tbuf buflen msgid openId : Nat)
    (devs : List (Bool × DlReply)) (uevs : List (Bool × Nat × StatusReply)) :
    (∀ s ∈ dlStates size nrq devs (dlInit buflen msgid),
        s.num_req ≤ nrq + 1 ∧ s.max_req ≤ nrq + 1) ∧
    (∀ s ∈ ulStates nrq tbuf uevs (ulInit openId), s.id - s.ackid ≤ nrq) := by
  constructor
  · exact dlStates_window_bound size nrq devs (dlInit buflen msgid)
      (by simp only [dlInit]; omega) (by simp only [dlInit]; omega)
  · exact ulStates_window_bound nrq tbuf uevs (ulInit openId)
      (by simp only [ulInit, List.length_nil]; omega) (by simp only [ulInit]; omega)

/-- Closed witness for `transfer_window_bound`: a one-reply download run and
a one-write upload run, with the bound read off a state of each. -/
theorem transfer_window_bound_witness :
    ((⟨512, 1, 1, 512, 3, [⟨2, 512, 0⟩], [⟨2, 512, 0⟩], false, false, 0⟩ : DlState) ∈
        dlStates 0 1 [(false, .dataRep 2 512 true)] (dlInit 512 2)) ∧
    ((⟨512, 1, 1, 512, 3, [⟨2, 512, 0⟩], [⟨2, 512, 0⟩], false, false, 0⟩ : DlState).num_req ≤ 2) ∧
    ((⟨3, 3, 3, 0, [⟨3, 0, 5⟩], 0⟩ : UlState) ∈
        ulStates 1 512 [(false, 5, ⟨101, 3, 0⟩)] (ulInit 2)) ∧
    ((⟨3, 3, 3, 0, [⟨3, 0, 5⟩], 0⟩ : UlState).id -
      (⟨3, 3, 3, 0, [⟨3, 0, 5⟩], 0⟩ : UlState).ackid ≤ 1) := by
  refine ⟨by decide, ?_, by decide, ?_⟩
  · exact ((transfer_window_bound 0 1 512 512 2 2 [(false, .dataRep 2 512 true)]
      [(false, 5, ⟨101, 3, 0⟩)]).1 _ (by decide)).1
  · exact (transfer_window_bound 0 1 512 512 2 2 [(false, .dataRep 2 512 true)]
      [(false, 5, ⟨101, 3, 0⟩)]).2 _ (by decide)

theorem updateFirst_eq_set (p : α → Bool) (f : α → α) :
    ∀ l : List α, ∀ a : α, l.find? p = some a →
      updateFirst p f l = l.set (l.findIdx p) (f a) := by
  intro l
  induction l with
  | nil =>
    intro a h
    exact absurd h (by simp)
  | cons x xs ih =>
    intro a h
    rw [updateFirst]
    by_cases hp : p x = true
    · rw [List.find?_cons_of_pos _ hp] at h
      rw [Option.some_inj] at h
      subst h
      rw [if_pos hp, List.findIdx_cons]
      simp [hp]
    · rw [List.find?_cons_of_neg _ hp] at h
      rw [if_neg hp, ih _ h, List.findIdx_cons]
      simp [hp]

/-- `buflen` values along a run: every state's `buflen` is at most its
predecessor's (the head argument is the predecessor's value) and at least
`MIN_READ_SIZE`. -/
def BuflenMono : Nat → List DlState → Prop
  | _, [] => True
  | b, s :: rest =>
    s.buflen ≤ b ∧ MIN_READ_SIZE ≤ s.buflen ∧ BuflenMono s.buflen rest

theorem dlStates_buflen_mono (size nrq : Nat) (evs : List (Bool × DlReply)) :
    ∀ st : DlState, MIN_READ_SIZE ≤ st.buflen →
      BuflenMono st.buflen (dlStates size nrq evs st) := by
  induction evs with
  | nil =>
    intro st hb
    trivial
  | cons ev rest ih =>
    rcases ev with ⟨intr, rep⟩
    intro st hb
    rw [dlStates]
    split
    · trivial
    · split
      · trivial
      · set st1 : DlState := (if intr then { st with max_req := 0 } else st) with hst1
        have hb1 : st1.buflen = st.buflen := by
          rw [hst1]
          split <;> rfl
        obtain ⟨_, _, hf3⟩ := fill_num_req st1
        simp only []
        cases happ : applyReply size nrq rep (fill st1) with
        | none =>
          rw [BuflenMono, BuflenMono, BuflenMono]
          refine ⟨by omega, by omega, by omega, by omega, trivial⟩
        | some st3 =>
          obtain ⟨_, _, _, hbf⟩ := applyReply_bounds size nrq rep _ _ happ
          obtain ⟨hbf1, hbf2⟩ := hbf (by omega)
          rw [BuflenMono, BuflenMono, BuflenMono]
          refine ⟨by omega, by omega, by omega, by omega, by omega, by omega, ?_⟩
          exact ih st3 hbf1

/-- C2 counterexample: the claim "`buflen` only ever shrinks" is false.
With `transfer_buflen = 100 < MIN_READ_SIZE`, the first short read sets
`buflen = max(512, len)`, *raising* it from 100 to 512. -/
theorem short_read_buflen_growth :
    ∃ s ∈ dlStates 0 64 [(false, .dataRep 2 50 true)] (dlInit 100 2),
      (dlInit 100 2).buflen < s.buflen := by decide

/-- C2 (amended): on a DATA reply carrying `len < req.len` bytes (a short
read), the client re-issues a request for exactly the tail
`[req.offset + len, req.offset + req.len)` under the freshly incremented id
`msg_id++`, updating the queue entry in place (the entry at the position of
the matched request is replaced, everything else is untouched); if
`len < buflen` the global `buflen` is set to `max(512, len)`.  Provided the
starting `buflen = conn.transfer_buflen` is at least `MIN_READ_SIZE = 512`,
`buflen` never grows along a run and never drops below 512; a
`transfer_buflen` below 512 can instead be *raised* to 512 by a short
read. -/
theorem short_read_reissue (size nrq rid len : Nat) (wok : Bool)
    (st st' : DlState) (req : DlRequest)
    (hf : st.requests.find? (fun r => r.id == rid) = some req)
    (hshort : len < req.len)
    (happ : applyReply size nrq (.dataRep rid len wok) st = some st') :
    (st'.sent = st.sent ++ [⟨st.msg_id, req.len - len, req.offset + len⟩] ∧
     req.offset + len + (req.len - len) = req.offset + req.len ∧
     st'.msg_id = st.msg_id + 1 ∧
     st'.requests = st.requests.set (st.requests.findIdx (fun r => r.id == rid))
       ⟨st.msg_id, req.len - len, req.offset + len⟩ ∧
     st'.requests.length = st.requests.length ∧
     st'.buflen = if len < st.buflen then max MIN_READ_SIZE len else st.buflen) ∧
    (∀ evs : List (Bool × DlReply), ∀ st0 : DlState,
      MIN_READ_SIZE ≤ st0.buflen →
      BuflenMono st0.buflen (dlStates size nrq evs st0)) := by
  constructor
  · simp only [applyReply, hf] at happ
    rw [if_neg (by omega)] at happ
    have hne : ¬ len = req.len := by omega
    have hset := updateFirst_eq_set (fun r => r.id == rid)
      (fun r => { id := st.msg_id, len := r.len - len, offset := r.offset + len })
      st.requests req hf
    rw [if_neg hne] at happ
    repeat' split at happ
    all_goals
      first
      | exact Option.noConfusion happ
      | (rw [Option.some_inj] at happ
         subst happ
         refine ⟨?_, by omega, ?_, ?_, ?_, ?_⟩ <;>
           (try rfl) <;> (try (simp only [hset, List.length_set]; try rfl))
         all_goals (split
                    all_goals simp_all))
  · intro evs st0 hb0
    exact dlStates_buflen_mono size nrq evs st0 hb0

/-- Closed witness for `short_read_reissue`: a 100-byte short reply to a
512-byte request re-issues `[100, 512)` under the next id. -/
theorem short_read_reissue_witness :
    (applyReply 0 64 (.dataRep 2 100 true)
        ⟨512, 1, 1, 512, 3, [⟨2, 512, 0⟩], [], false, false, 0⟩ =
      some ⟨512, 1, 2, 512, 4, [⟨3, 412, 100⟩], [⟨3, 412, 100⟩], false, false, 0⟩) ∧
    ((⟨512, 1, 2, 512, 4, [⟨3, 412, 100⟩], [⟨3, 412, 100⟩], false, false, 0⟩ : DlState).sent =
      [] ++ [⟨3, 412, 100⟩]) := by
  refine ⟨by decide, ?_⟩
  exact (short_read_reissue 0 64 2 100 true
    ⟨512, 1, 1, 512, 3, [⟨2, 512, 0⟩], [], false, false, 0⟩
    ⟨512, 1, 2, 512, 4, [⟨3, 412, 100⟩], [⟨3, 412, 100⟩], false, false, 0⟩
    ⟨2, 512, 0⟩ (by decide) (by decide) (by decide)).1.1

end Sftp
